import Mathlib

/-!
Verification of the alert rendering and delivery pipeline of
`src/whatsapp-webhook/app.py` (Telegram webhook service for Alertmanager).

The Python code is shallowly embedded: dictionaries become association
lists, `str` becomes `String` (with most scanning done on `List Char`),
ambient state (the wall clock read by `datetime.utcnow()`, the provider's
HTTP responses, the environment configuration) becomes explicit
parameters, and fallible operations return `Option`.
-/

namespace ModelsMonitor

/-- Character lists, the working representation of Python `str`. -/
abbrev Str := List Char

/-- Python `dict.get(k, d)` over an association list (first binding wins,
as in a dict where each key is unique). -/
def getD (m : List (String × String)) (k : String) (d : String) : String :=
  match m.lookup k with
  | some v => v
  | none => d

/-- The characters Python's `str.strip()` and the regex class `\s` treat as
whitespace (ASCII subset). -/
def isSpacePy (c : Char) : Bool :=
  c = ' ' || c = '\t' || c = '\n' || c = '\x0d' || c = '\x0b' || c = '\x0c'

/-- Python `str.strip()`. -/
def pyStrip (l : Str) : Str :=
  ((l.dropWhile isSpacePy).reverse.dropWhile isSpacePy).reverse

/-- Python `str.strip()` on `String`. -/
def pyStripStr (s : String) : String :=
  String.mk (pyStrip s.toList)

/-- Python `str.lower()` (ASCII case mapping, enough for the alert names and
provider descriptions handled here). -/
def pyLower (s : String) : String :=
  String.mk (s.toList.map Char.toLower)

/-- Python `str.upper()` (ASCII case mapping). -/
def pyUpper (s : String) : String :=
  String.mk (s.toList.map Char.toUpper)

/-- Contiguous-substring test on character lists (scan every start
position). -/
def containsSub (sub : Str) : Str → Bool
  | [] => sub.isEmpty
  | c :: rest => sub.isPrefixOf (c :: rest) || containsSub sub rest

/-- Python `sub in s` substring membership. -/
def pyIn (sub s : String) : Bool :=
  containsSub sub.toList s.toList

/-- One step of Python `str.replace(pat, rep)`: structural fuel makes the
definition kernel-reducible; `fuel = l.length` always suffices because every
step consumes at least one character (`pat` is nonempty at every call site:
the placeholder literals, `'Z'`, `'*'` and `'_'`). -/
def replaceAllF (pat rep : Str) (fuel : Nat) (l : Str) : Str :=
  match l, fuel with
  | [], _ => []
  | c :: rest, 0 => c :: rest
  | c :: rest, fuel + 1 =>
    if pat ≠ [] ∧ pat.isPrefixOf (c :: rest) then
      rep ++ replaceAllF pat rep fuel (List.drop (pat.length - 1) rest)
    else
      c :: replaceAllF pat rep fuel rest

/-- Python `str.replace(pat, rep)` (all non-overlapping occurrences, left to
right). -/
def replaceAll (pat rep l : Str) : Str :=
  replaceAllF pat rep l.length l

/-- Python `str.replace` on `String`. -/
def pyReplace (s pat rep : String) : String :=
  String.mk (replaceAll pat.toList rep.toList s.toList)

/-! ### The value-extraction regex

`re.search(r'(\d+(?:\.\d+)?)\s*(°C|%|MHz|MB)', description, re.IGNORECASE)`
from `render_template` (app.py lines 150-156).  The code first runs the
same pattern with a non-capturing unit group and takes `group(1)`, then
runs the capturing variant and appends `group(2)`; both regexes match at
the same leftmost position, so one model function returning both groups
is observably the same. -/

/-- Match one unit alternative case-insensitively at the head of `l`,
returning the matched characters as they appear in the text. -/
def unitAt (u : Str) (l : Str) : Option Str :=
  let p := l.take u.length
  if p.length = u.length ∧ p.map Char.toLower = u then some p else none

/-- The unit alternation `(°C|%|MHz|MB)` with `re.IGNORECASE`, tried in the
pattern's order. -/
def matchUnit (l : Str) : Option Str :=
  match unitAt ['°', 'c'] l with
  | some u => some u
  | none =>
    match unitAt ['%'] l with
    | some u => some u
    | none =>
      match unitAt ['m', 'h', 'z'] l with
      | some u => some u
      | none => unitAt ['m', 'b'] l

/-- Attempt the pattern at the head of `l`: digits, an optional fractional
part (tried greedily first, dropped on failure, as a backtracking engine
does), `\s*`, then a unit.  Returns `(group 1, group 2)`. -/
def matchAt (l : Str) : Option (Str × Str) :=
  let ds := l.takeWhile Char.isDigit
  let r1 := l.dropWhile Char.isDigit
  if ds = [] then none
  else
    let withFrac : Option (Str × Str) :=
      match r1 with
      | '.' :: r2 =>
        let fs := r2.takeWhile Char.isDigit
        let r3 := r2.dropWhile Char.isDigit
        if fs = [] then none
        else
          match matchUnit (r3.dropWhile isSpacePy) with
          | some u => some (ds ++ '.' :: fs, u)
          | none => none
      | _ => none
    match withFrac with
    | some res => some res
    | none =>
      match matchUnit (r1.dropWhile isSpacePy) with
      | some u => some (ds, u)
      | none => none

/-- `re.search`: the match at the leftmost position where the pattern
succeeds, or `none`. -/
def searchVal : Str → Option (Str × Str)
  | [] => none
  | c :: rest =>
    match matchAt (c :: rest) with
    | some r => some r
    | none => searchVal rest

/-- The value field (app.py lines 146-160): `'N/A'`, overwritten by the
regex scan of the description when it matches, overwritten in turn by an
explicit `value` annotation. -/
def extractValue (annotations : List (String × String)) (description : String) : String :=
  let scanned : String :=
    match searchVal description.toList with
    | some (num, u) => String.mk (num ++ u)
    | none => "N/A"
  match annotations.lookup "value" with
  | some v => v
  | none => scanned

/-! ### Timestamp handling

`datetime.fromisoformat(starts_at.replace('Z', '+00:00'))` followed by
`strftime('%Y-%m-%d %H:%M:%S UTC')` (app.py lines 162-167), with the raw
string kept on any parse failure.  `fromisoformat` is modelled with
Python 3.11+ semantics over the common ISO-8601 forms the service
receives: `YYYY-MM-DD`, optionally a single separator character and
`HH:MM[:SS[.digits]]` with fractional seconds of any length (digits beyond
microseconds are ignored, and `strftime` drops them anyway), optionally a
`±HH:MM` offset.  Forms outside this subset (basic format without dashes,
fractional offsets, ...) are treated as parse failures; no statement below
quantifies over them. -/

/-- The wall-clock fields `strftime` reads (fractional seconds and the
offset are parsed, validated and dropped). -/
structure PyDateTime where
  year : Nat
  month : Nat
  day : Nat
  hour : Nat
  minute : Nat
  second : Nat
deriving Repr, DecidableEq

/-- Numeric value of a decimal digit character. -/
def digitVal (c : Char) : Nat := c.toNat - '0'.toNat

/-- Exactly `n` decimal digits, returning their value and the rest. -/
def parseNDigits : Nat → Str → Option (Nat × Str)
  | 0, l => some (0, l)
  | _ + 1, [] => none
  | n + 1, c :: rest =>
    if c.isDigit then
      match parseNDigits n rest with
      | some (v, r) => some (digitVal c * 10 ^ n + v, r)
      | none => none
    else none

/-- Require character `c` at the head. -/
def expectChar (c : Char) : Str → Option Str
  | [] => none
  | x :: rest => if x = c then some rest else none

/-- Gregorian leap year, as `datetime` validates days. -/
def isLeap (y : Nat) : Bool :=
  y % 4 = 0 && (y % 100 ≠ 0 || y % 400 = 0)

/-- Days in a month, as `datetime` validates days. -/
def daysInMonth (y m : Nat) : Nat :=
  if m = 2 then (if isLeap y then 29 else 28)
  else if m = 4 ∨ m = 6 ∨ m = 9 ∨ m = 11 then 30
  else 31

/-- `YYYY-MM-DD` with range validation. -/
def parseDate (l : Str) : Option (Nat × Nat × Nat × Str) := do
  let (y, r1) ← parseNDigits 4 l
  let r2 ← expectChar '-' r1
  let (mo, r3) ← parseNDigits 2 r2
  let r4 ← expectChar '-' r3
  let (d, r5) ← parseNDigits 2 r4
  if 1 ≤ mo ∧ mo ≤ 12 ∧ 1 ≤ d ∧ d ≤ daysInMonth y mo then pure (y, mo, d, r5) else none

/-- `HH:MM[:SS[.digits]]` with range validation; fractional seconds of any
positive length are accepted (Python 3.11+) and discarded. -/
def parseTime (l : Str) : Option (Nat × Nat × Nat × Str) := do
  let (h, r1) ← parseNDigits 2 l
  let r2 ← expectChar ':' r1
  let (mi, r3) ← parseNDigits 2 r2
  let (s, r4) ←
    match r3 with
    | ':' :: r5 => do
      let (s, r6) ← parseNDigits 2 r5
      match r6 with
      | '.' :: r7 =>
        let fs := r7.takeWhile Char.isDigit
        let rr := r7.dropWhile Char.isDigit
        if fs = [] ∧ rr = [] then none else some (s, rr)
      | ',' :: r7 =>
        let fs := r7.takeWhile Char.isDigit
        let rr := r7.dropWhile Char.isDigit
        if fs = [] ∧ rr = [] then none else some (s, rr)
      | _ => some (s, r6)
    | _ => some (0, r3)
  if h ≤ 23 ∧ mi ≤ 59 ∧ s ≤ 59 then pure (h, mi, s, r4) else none

/-- An optional trailing UTC offset `±HH:MM`; must consume the whole rest. -/
def parseOffset : Str → Option Unit
  | [] => some ()
  | '+' :: r => do
    let (oh, r1) ← parseNDigits 2 r
    let r2 ← expectChar ':' r1
    let (om, r3) ← parseNDigits 2 r2
    if oh ≤ 23 ∧ om ≤ 59 ∧ r3 = [] then some () else none
  | '-' :: r => do
    let (oh, r1) ← parseNDigits 2 r
    let r2 ← expectChar ':' r1
    let (om, r3) ← parseNDigits 2 r2
    if oh ≤ 23 ∧ om ≤ 59 ∧ r3 = [] then some () else none
  | _ => none

/-- `datetime.fromisoformat` (Python 3.11+ semantics, subset described
above). -/
def fromisoformat (s : String) : Option PyDateTime := do
  let (y, mo, d, r) ← parseDate s.toList
  match r with
  | [] => pure ⟨y, mo, d, 0, 0, 0⟩
  | _ :: rt => do
    let (h, mi, sec, r2) ← parseTime rt
    let _ ← parseOffset r2
    pure ⟨y, mo, d, h, mi, sec⟩

/-- Zero-padded two-digit field. -/
def pad2 (n : Nat) : String :=
  if n < 10 then "0" ++ toString n else toString n

/-- `dt.strftime('%Y-%m-%d %H:%M:%S UTC')`.  On Linux (the service runs in
a container) glibc prints `%Y` without zero padding. -/
def formatDT (dt : PyDateTime) : String :=
  toString dt.year ++ "-" ++ pad2 dt.month ++ "-" ++ pad2 dt.day ++ " " ++
    pad2 dt.hour ++ ":" ++ pad2 dt.minute ++ ":" ++ pad2 dt.second ++ " UTC"

/-- The `try`/`except` around timestamp formatting (app.py lines 162-167):
replace every `'Z'` with `'+00:00'`, parse, format; on failure keep the raw
input verbatim. -/
def formatTimestamp (starts_at : String) : String :=
  match fromisoformat (pyReplace starts_at "Z" "+00:00") with
  | some dt => formatDT dt
  | none => starts_at

/-! ### The placeholder safety pass

`re.sub(r'\{\{[^}]+\}\}', 'N/A', message)` (app.py line 185): every
leftmost non-overlapping run of `{{`, one or more non-`}` characters, `}}`
is replaced by `N/A`.  `re.sub` scans left to right, trying the pattern at
each position; at a given start the greedy `[^}]+` run is the only interior
that can match. -/

/-- The left and right brace characters. -/
def lb : Char := '\x7b'

/-- See `lb`. -/
def rb : Char := '\x7d'

/-- The character class `[^}]`. -/
def notRb (c : Char) : Bool := c != rb

/-- Match the placeholder pattern at the head of `l`; `some tail` is the
rest after the consumed match. -/
def tokHead : Str → Option Str
  | c1 :: c2 :: rest =>
    if c1 = lb ∧ c2 = lb ∧ rest.takeWhile notRb ≠ [] then
      match rest.dropWhile notRb with
      | _ :: d2 :: tail => if d2 = rb then some tail else none
      | _ => none
    else none
  | [] => none
  | [_] => none

/-- The `re.sub` scan with structural fuel (each step consumes at least one
character, so `fuel = l.length` suffices and keeps the definition
kernel-reducible). -/
def subAllF (fuel : Nat) (l : Str) : Str :=
  match l, fuel with
  | [], _ => []
  | c :: rest, 0 => c :: rest
  | c :: rest, fuel + 1 =>
    match tokHead (c :: rest) with
    | some tail => 'N' :: '/' :: 'A' :: subAllF fuel tail
    | none => c :: subAllF fuel rest

/-- `re.sub(r'\{\{[^}]+\}\}', 'N/A', ·)`. -/
def subAll (l : Str) : Str := subAllF l.length l

/-! ### Alerts and field extraction (app.py lines 135-187) -/

/-- One Alertmanager alert as the webhook reads it: the `labels` and
`annotations` dicts, and the optional `status` / `startsAt` keys
(`alert.get` with defaults in the code). -/
structure Alert where
  labels : List (String × String)
  annotations : List (String × String)
  status : Option String
  startsAt : Option String
deriving Repr, DecidableEq

/-- `labels.get('alertname', 'Unknown')`. -/
def fieldAlertname (a : Alert) : String :=
  getD a.labels "alertname" "Unknown"

/-- `labels.get('instance', labels.get('exported_instance', 'Unknown'))`. -/
def fieldInstance (a : Alert) : String :=
  getD a.labels "instance" (getD a.labels "exported_instance" "Unknown")

/-- `labels.get('severity', 'unknown').upper()`. -/
def fieldSeverity (a : Alert) : String :=
  pyUpper (getD a.labels "severity" "unknown")

/-- `annotations.get('description', annotations.get('summary', 'No description'))`. -/
def fieldDescription (a : Alert) : String :=
  getD a.annotations "description" (getD a.annotations "summary" "No description")

/-- The value field of the alert (annotation override plus regex scan). -/
def fieldValue (a : Alert) : String :=
  extractValue a.annotations (fieldDescription a)

/-- `alert.get('status', 'unknown').upper()`. -/
def fieldStatus (a : Alert) : String :=
  pyUpper (a.status.getD "unknown")

/-- `alert.get('startsAt', datetime.utcnow().isoformat())` followed by the
timestamp formatting; `now` is the wall-clock reading
`datetime.utcnow().isoformat()` made explicit. -/
def fieldTime (a : Alert) (now : String) : String :=
  formatTimestamp (a.startsAt.getD now)

/-- The canonical field set `render_template` derives from one alert
(the spec's `extract(alert) -> FieldSet`). -/
structure FieldSet where
  alertname : String
  instanceName : String
  severity : String
  value : String
  time : String
  description : String
  summary : String
  statusText : String
deriving Repr, DecidableEq

/-- `extract`: all renderable fields of one alert.  `now` is the ambient
wall-clock string used only when `startsAt` is absent. -/
def extract (a : Alert) (now : String) : FieldSet :=
  ⟨fieldAlertname a, fieldInstance a, fieldSeverity a, fieldValue a,
    fieldTime a now, fieldDescription a, getD a.annotations "summary" "",
    fieldStatus a⟩

/-- The `replacements` dict of app.py lines 170-179, in insertion order. -/
def replacements (a : Alert) (now : String) : List (String × String) :=
  [("\x7b\x7b alertname \x7d\x7d", fieldAlertname a),
   ("\x7b\x7b instance \x7d\x7d", fieldInstance a),
   ("\x7b\x7b severity \x7d\x7d", fieldSeverity a),
   ("\x7b\x7b value \x7d\x7d", fieldValue a),
   ("\x7b\x7b startsAt \x7d\x7d", fieldTime a now),
   ("\x7b\x7b description \x7d\x7d", fieldDescription a),
   ("\x7b\x7b summary \x7d\x7d", getD a.annotations "summary" ""),
   ("\x7b\x7b status \x7d\x7d", fieldStatus a)]

/-- `render_template(template, alert)` (app.py lines 135-187): substitute
each placeholder key in dict order, replace any remaining `{{ ... }}` run
with `N/A`, and strip the result. -/
def render_template (template : String) (a : Alert) (now : String) : String :=
  let substituted :=
    (replacements a now).foldl
      (fun m kv => replaceAll kv.1.toList kv.2.toList m) template.toList
  String.mk (pyStrip (subAll substituted))

/-! ### Templates (app.py lines 39-132)

`load_template` first tries `/app/templates/{name}_{type}.tmpl`; the
template directory is modelled as absent (external template files are
deployment data, not part of this repository), so `load_template` is
`get_default_template`. -/

/-- The built-in `HighTemperature` template. -/
def tmpl_temperature : String :=
  " *High Temperature Alert*\n\n*Alert:* \x7b\x7b alertname \x7d\x7d\n*Instance:* \x7b\x7b instance \x7d\x7d\n*Severity:* \x7b\x7b severity \x7d\x7d\n*Temperature:* \x7b\x7b value \x7d\x7d°C\n*Time:* \x7b\x7b startsAt \x7d\x7d\n\n\x7b\x7b description \x7d\x7d\n\n*Status:* \x7b\x7b status \x7d\x7d"

/-- The built-in `CPUCoreImbalance` template. -/
def tmpl_cpu : String :=
  " *CPU Core Imbalance Alert*\n\n*Alert:* \x7b\x7b alertname \x7d\x7d\n*Instance:* \x7b\x7b instance \x7d\x7d\n*Severity:* \x7b\x7b severity \x7d\x7d\n*Core Usage:* \x7b\x7b value \x7d\x7d%\n*Time:* \x7b\x7b startsAt \x7d\x7d\n\n\x7b\x7b description \x7d\x7d\n\n*Status:* \x7b\x7b status \x7d\x7d"

/-- The built-in `HighGPUUsage` template. -/
def tmpl_gpu : String :=
  " *High GPU Usage Alert*\n\n*Alert:* \x7b\x7b alertname \x7d\x7d\n*Instance:* \x7b\x7b instance \x7d\x7d\n*Severity:* \x7b\x7b severity \x7d\x7d\n*GPU Usage:* \x7b\x7b value \x7d\x7d%\n*Time:* \x7b\x7b startsAt \x7d\x7d\n\n\x7b\x7b description \x7d\x7d\n\n*Status:* \x7b\x7b status \x7d\x7d"

/-- The built-in `HighRAMUsage` template. -/
def tmpl_ram : String :=
  " *High RAM Usage Alert*\n\n*Alert:* \x7b\x7b alertname \x7d\x7d\n*Instance:* \x7b\x7b instance \x7d\x7d\n*Severity:* \x7b\x7b severity \x7d\x7d\n*RAM Usage:* \x7b\x7b value \x7d\x7d\n*Time:* \x7b\x7b startsAt \x7d\x7d\n\n\x7b\x7b description \x7d\x7d\n\n*Status:* \x7b\x7b status \x7d\x7d"

/-- The generic fallback template. -/
def tmpl_generic : String :=
  "*Alert: \x7b\x7b alertname \x7d\x7d*\n\n*Instance:* \x7b\x7b instance \x7d\x7d\n*Severity:* \x7b\x7b severity \x7d\x7d\n*Value:* \x7b\x7b value \x7d\x7d\n*Time:* \x7b\x7b startsAt \x7d\x7d\n\n\x7b\x7b description \x7d\x7d\n\n*Status:* \x7b\x7b status \x7d\x7d"

/-- The `defaults` dict keyed by alert name (app.py lines 57-105). -/
def defaults : List (String × String) :=
  [("HighTemperature", tmpl_temperature),
   ("CPUCoreImbalance", tmpl_cpu),
   ("HighGPUUsage", tmpl_gpu),
   ("HighRAMUsage", tmpl_ram)]

/-- The `type_defaults` dict keyed by alert type (app.py lines 112-117). -/
def type_defaults : List (String × String) :=
  [("temperature", tmpl_temperature),
   ("cpu", tmpl_cpu),
   ("gpu", tmpl_gpu),
   ("ram", tmpl_ram)]

/-- `get_default_template(alert_name, alert_type)`: exact name first, then
type, then the generic fallback. -/
def get_default_template (alert_name alert_type : String) : String :=
  match defaults.lookup alert_name with
  | some t => t
  | none =>
    match type_defaults.lookup alert_type with
    | some t => t
    | none => tmpl_generic

/-- `load_template(alert_name, alert_type)` with the template directory
absent: the built-in default. -/
def load_template (alert_name alert_type : String) : String :=
  get_default_template alert_name alert_type

/-- The template-type inference of the `webhook` handler (app.py lines
307-320): the `alert_type` label if truthy, else substring tests on the
alert name in priority order. -/
def template_type (labels : List (String × String)) (alert_name : String) : String :=
  let alert_type_label := getD labels "alert_type" ""
  if alert_type_label ≠ "" then alert_type_label
  else if pyIn "Temperature" alert_name || pyIn "temperature" (pyLower alert_name) then
    "temperature"
  else if pyIn "CPU" alert_name || pyIn "cpu" (pyLower alert_name) ||
      pyIn "Core" alert_name then
    "cpu"
  else if pyIn "GPU" alert_name || pyIn "gpu" (pyLower alert_name) then
    "gpu"
  else if pyIn "RAM" alert_name || pyIn "ram" (pyLower alert_name) ||
      pyIn "Ram" alert_name then
    "ram"
  else "default"

/-! ### Telegram delivery (app.py lines 199-257) -/

/-- The environment configuration the send path reads. -/
structure TelegramConfig where
  enabled : Bool
  botToken : String
  chatIds : List String
  sendResolved : Bool

/-- One `requests.post` body to the `sendMessage` API: chat id, text, and
the optional `parse_mode` field. -/
structure SendReq where
  chat_id : String
  text : String
  parse_mode : Option String
deriving Repr, DecidableEq

/-- What one `requests.post` produces, as the code observes it: a raised
exception (network error, timeout), or a response with an HTTP status
(`raise_for_status` raises unless it is a success status) and a JSON body
whose `ok` flag and `description` the code reads. -/
inductive ProviderResp where
  | exn
  | reply (httpOk : Bool) (ok : Bool) (description : String)

/-- The provider as a function from request to response. -/
abbrev Provider := SendReq → ProviderResp

/-- The recorded outcome for one chat id. -/
inductive ChatOutcome where
  | sentMarkdown
  | sentPlain
  | failed
deriving Repr, DecidableEq

/-- `message.replace('*', '').replace('_', '')` (app.py line 242). -/
def stripMarkup (m : String) : String :=
  pyReplace (pyReplace m "*" "") "_" ""

/-- The first attempt's request for one chat (app.py lines 223-227):
Markdown formatting mode. -/
def firstReq (message chat_id : String) : SendReq :=
  ⟨pyStripStr chat_id, message, some "Markdown"⟩

/-- The fallback request (app.py lines 240-243): markup stripped, no
`parse_mode`. -/
def retryReq (message chat_id : String) : SendReq :=
  ⟨pyStripStr chat_id, stripMarkup message, none⟩

/-- The loop body for one chat id (app.py lines 220-255), returning the
recorded outcome and the requests actually issued. -/
def sendOne (provider : Provider) (message chat_id : String) :
    ChatOutcome × List SendReq :=
  let r1 := firstReq message chat_id
  match provider r1 with
  | .exn => (.failed, [r1])
  | .reply httpOk ok desc =>
    if !httpOk then (.failed, [r1])
    else if ok then (.sentMarkdown, [r1])
    else if pyIn "parse" (pyLower desc) then
      let r2 := retryReq message chat_id
      match provider r2 with
      | .exn => (.failed, [r1, r2])
      | .reply h2 ok2 _ => if h2 && ok2 then (.sentPlain, [r1, r2]) else (.failed, [r1, r2])
    else (.failed, [r1])

/-- The value and observable trace of one `send_telegram_message` call. -/
structure SendOutcome where
  success : Bool
  outcomes : List (String × ChatOutcome)
  requests : List SendReq
deriving Repr, DecidableEq

/-- `send_telegram_message(message)` with the configured chat ids
(app.py lines 199-257).  `success` is the returned boolean; `outcomes` and
`requests` record what happened per chat for the statements below. -/
def send_telegram_message (cfg : TelegramConfig) (provider : Provider)
    (message : String) : SendOutcome :=
  if !cfg.enabled then ⟨false, [], []⟩
  else if cfg.botToken = "" then ⟨false, [], []⟩
  else
    let chats := (cfg.chatIds.filter (fun c => pyStripStr c ≠ "")).map pyStripStr
    if chats = [] then ⟨false, [], []⟩
    else
      let per := chats.map (fun c => (c, sendOne provider message c))
      ⟨per.all (fun p => p.2.1 ≠ ChatOutcome.failed),
        per.map (fun p => (p.1, p.2.1)),
        (per.map (fun p => p.2.2)).flatten⟩

/-! ### The webhook endpoint (app.py lines 272-336) -/

/-- One JSON object body as the handler reads it: whether the `alerts` and
`status` keys are present (with their values), and whether any other key
(`version`, `groupKey`, `receiver`, ...) is present — which decides the
dict's truthiness for the `if not data` check. -/
structure Batch where
  hasAlerts : Bool
  alerts : List Alert
  hasStatus : Bool
  statusText : String
  hasOtherKeys : Bool
deriving Repr, DecidableEq

/-- Python truthiness of the parsed dict: nonempty. -/
def Batch.truthy (b : Batch) : Bool :=
  b.hasAlerts || b.hasStatus || b.hasOtherKeys

/-- What `request.get_json()` produced: a raised parse error (absent body,
wrong content type, or malformed JSON — Flask raises, and the handler's
`except Exception` turns it into a 500), or a parsed JSON object. -/
inductive ParsedBody where
  | parseError
  | obj (b : Batch)

/-- The per-alert record the loop produces when the alert is not skipped. -/
structure AlertDelivery where
  alert_name : String
  message : String
  send : SendOutcome
deriving Repr, DecidableEq

/-- The body of the per-alert loop (app.py lines 297-330): `none` when the
alert is skipped.  Note the skip check reads `status`, the **batch-level**
status variable from line 292, not the alert's own `status` key. -/
def processAlert (cfg : TelegramConfig) (provider : Provider) (now : String)
    (batchStatus : String) (alert : Alert) : Option AlertDelivery :=
  let alert_name := getD alert.labels "alertname" "Unknown"
  if batchStatus = "resolved" && !cfg.sendResolved then none
  else
    let ty := template_type alert.labels alert_name
    let template := load_template alert_name ty
    let message := render_template template alert now
    some ⟨alert_name, message, send_telegram_message cfg provider message⟩

/-- The HTTP response plus the per-alert work performed. -/
structure WebhookResponse where
  code : Nat
  okBody : Bool
  alertsCount : Option Nat
  deliveries : List AlertDelivery
deriving Repr, DecidableEq

/-- The `/webhook` handler (app.py lines 272-336).  A raised body-parse
error is caught by the outer `except` and answered with 500; a falsy parsed
body (empty object, `null`) is answered with 400; otherwise every alert is
processed and the call returns 200 with `alerts: len(alerts)`. -/
def webhook (cfg : TelegramConfig) (provider : Provider) (now : String) :
    ParsedBody → WebhookResponse
  | .parseError => ⟨500, false, none, []⟩
  | .obj b =>
    if !b.truthy then ⟨400, false, none, []⟩
    else
      let alerts := if b.hasAlerts then b.alerts else []
      let batchStatus := if b.hasStatus then b.statusText else "unknown"
      ⟨200, true, some alerts.length,
        alerts.filterMap (processAlert cfg provider now batchStatus)⟩

/-! ### Notions used by the statements below -/

/-- A placeholder token: `{{`, a nonempty brace-free interior, `}}` —
exactly a match of the pattern `\{\{[^}]+\}\}`. -/
def tokAtP (m : Str) : Prop :=
  ∃ r b, m = lb :: lb :: (r ++ rb :: rb :: b) ∧ r ≠ [] ∧ rb ∉ r

/-- `l` contains a placeholder token starting at some position. -/
def hasTok : Str → Prop
  | [] => False
  | c :: rest => tokAtP (c :: rest) ∨ hasTok rest

/-- Case-insensitive substring test (the claims' "contains the keyword in
any letter case"). -/
def ciIn (sub s : String) : Bool :=
  pyIn sub (pyLower s)

/-- A provider that rejects every request carrying a `parse_mode` with a
formatting error and accepts every plain-text request (used by the
concrete statements below). -/
def parseRejectProvider : Provider := fun r =>
  match r.parse_mode with
  | some _ => ProviderResp.reply true false "Bad Request: can't parse entities"
  | none => ProviderResp.reply true true ""

/-- A provider that accepts every request. -/
def okProvider : Provider := fun _ => ProviderResp.reply true true ""

/-- A working configuration with one chat id and `SEND_RESOLVED_ALERTS`
unset (false). -/
def demoConfig : TelegramConfig := ⟨true, "token", ["42"], false⟩

/-! ## General lemmas -/

/-- `takeWhile` walks through a block of satisfying elements. -/
theorem takeWhile_append_all {p : Char → Bool} {r : Str} (z : Str)
    (h : ∀ c ∈ r, p c = true) : (r ++ z).takeWhile p = r ++ z.takeWhile p := by
  induction r with
  | nil => simp
  | cons c t ih =>
    simp only [List.cons_append, List.takeWhile_cons, h c (by simp)]
    exact congrArg (c :: ·) (ih (fun x hx => h x (by simp [hx])))

/-- `dropWhile` walks through a block of satisfying elements. -/
theorem dropWhile_append_all {p : Char → Bool} {r : Str} (z : Str)
    (h : ∀ c ∈ r, p c = true) : (r ++ z).dropWhile p = z.dropWhile p := by
  induction r with
  | nil => simp
  | cons c t ih =>
    simp only [List.cons_append, List.dropWhile_cons, h c (by simp)]
    exact ih (fun x hx => h x (by simp [hx]))

/-- The head surviving `dropWhile` fails the predicate. -/
theorem dropWhile_head_false {p : Char → Bool} {l : Str} {c : Char} {t : Str}
    (h : l.dropWhile p = c :: t) : p c = false := by
  induction l with
  | nil => simp at h
  | cons x xs ih =>
    rw [List.dropWhile_cons] at h
    by_cases hx : p x
    · exact ih (by simpa [hx] using h)
    · simp only [hx, if_false] at h
      cases h
      simpa using hx

/-- `dropWhile` is the identity when the head already fails the predicate. -/
theorem dropWhile_of_head_false {p : Char → Bool} {l : Str}
    (h : ∀ c, l.head? = some c → p c = false) : l.dropWhile p = l := by
  cases l with
  | nil => rfl
  | cons c t => simp [List.dropWhile_cons, h c rfl]

/-- A nonempty `dropWhile` keeps the original last element. -/
theorem dropWhile_getLast? {p : Char → Bool} {l : Str}
    (h : l.dropWhile p ≠ []) : (l.dropWhile p).getLast? = l.getLast? := by
  induction l with
  | nil => simp at h
  | cons c t ih =>
    rw [List.dropWhile_cons] at h ⊢
    by_cases hc : p c
    · rw [if_pos hc] at h ⊢
      rw [ih h]
      have ht : t ≠ [] := by
        intro he
        rw [he] at h
        simp at h
      rcases List.exists_cons_of_ne_nil ht with ⟨z, zs, hzs⟩
      rw [hzs, List.getLast?_cons_cons]
    · simp [hc]

/-- The head of a stripped string is not whitespace. -/
theorem pyStrip_head {l : Str} {c : Char} (h : (pyStrip l).head? = some c) :
    isSpacePy c = false := by
  unfold pyStrip at h
  rw [List.head?_reverse] at h
  have hne : (((l.dropWhile isSpacePy).reverse).dropWhile isSpacePy) ≠ [] := by
    intro he
    rw [he] at h
    simp at h
  rw [dropWhile_getLast? hne, List.getLast?_reverse] at h
  rcases he : (l.dropWhile isSpacePy) with _ | ⟨x, xs⟩
  · rw [he] at h; simp at h
  · rw [he] at h
    simp only [List.head?_cons, Option.some_inj] at h
    subst h
    exact dropWhile_head_false he

/-- The last element of a stripped string is not whitespace. -/
theorem pyStrip_getLast {l : Str} {c : Char} (h : (pyStrip l).getLast? = some c) :
    isSpacePy c = false := by
  unfold pyStrip at h
  rw [List.getLast?_reverse] at h
  rcases he : ((l.dropWhile isSpacePy).reverse).dropWhile isSpacePy with _ | ⟨x, xs⟩
  · rw [he] at h; simp at h
  · rw [he] at h
    simp only [List.head?_cons, Option.some_inj] at h
    subst h
    exact dropWhile_head_false he

/-- Stripping is idempotent: a stripped string is trimmed. -/
theorem pyStrip_idem (l : Str) : pyStrip (pyStrip l) = pyStrip l := by
  have h1 : (pyStrip l).dropWhile isSpacePy = pyStrip l :=
    dropWhile_of_head_false (fun c hc => pyStrip_head hc)
  have h2 : ((pyStrip l).reverse).dropWhile isSpacePy = (pyStrip l).reverse := by
    refine dropWhile_of_head_false (fun c hc => ?_)
    rw [List.head?_reverse] at hc
    exact pyStrip_getLast hc
  show ((((pyStrip l).dropWhile isSpacePy).reverse).dropWhile isSpacePy).reverse = pyStrip l
  rw [h1, h2, List.reverse_reverse]

/-- `str.replace` with a single-character pattern rewrites each character
independently. -/
theorem replaceAllF_single (p : Char) (rep : Str) :
    ∀ (fuel : Nat) (l : Str), l.length ≤ fuel →
      replaceAllF [p] rep fuel l =
        l.flatMap (fun c => if c = p then rep else [c]) := by
  intro fuel
  induction fuel with
  | zero =>
    intro l h
    have : l = [] := List.length_eq_zero.mp (Nat.le_zero.mp h)
    subst this
    rfl
  | succ n ih =>
    intro l h
    cases l with
    | nil => rfl
    | cons c rest =>
      have hr := ih rest (by simpa using Nat.le_of_succ_le_succ h)
      by_cases hc : c = p
      · subst hc
        have hb : ([c].isPrefixOf (c :: rest)) = true := by
          simp [List.isPrefixOf]
        simp [replaceAllF, hb, hr]
      · have hb : ([p].isPrefixOf (c :: rest)) = false := by
          simp only [List.isPrefixOf, List.isPrefixOf_nil_left, Bool.and_true]
          exact beq_eq_false_iff_ne.mpr (fun h' : p = c => hc h'.symm)
        simp [replaceAllF, hb, hr, hc]

/-- See `replaceAllF_single`. -/
theorem replaceAll_single (p : Char) (rep l : Str) :
    replaceAll [p] rep l = l.flatMap (fun c => if c = p then rep else [c]) :=
  replaceAllF_single p rep l.length l le_rfl

/-- Characters different from the pattern are untouched. -/
theorem flatMap_replace_id {p : Char} {rep : Str} {l : Str}
    (h : ∀ c ∈ l, c ≠ p) :
    l.flatMap (fun c => if c = p then rep else [c]) = l := by
  induction l with
  | nil => rfl
  | cons c rest ih =>
    simp only [List.flatMap_cons, h c (by simp), if_false,
      ih (fun x hx => h x (by simp [hx])), List.singleton_append]

/-! ## C5 — field-extraction defaults -/

/-- C5 (counterexample): the claim says the instance default is
`"unknown"`; on an alert with empty labels and annotations the code's
default (app.py line 172) is `"Unknown"`. -/
theorem C5_counterexample :
    fieldInstance ⟨[], [], none, none⟩ = "Unknown" ∧
      fieldInstance ⟨[], [], none, none⟩ ≠ "unknown" := by
  constructor
  · rfl
  · decide

/-- C5 (amended): field extraction is total and applies fixed defaults: for
an alert with empty labels and annotations mappings, every field takes its
default — name "Unknown", instance "Unknown" (after trying label "instance"
then "exported_instance"), severity "unknown" upper-cased to "UNKNOWN" for
display, description "No description", value "N/A" — and no error is
raised (`extract` is a total function). -/
theorem C5_extract_defaults :
    ∀ (st sa : Option String) (now : String),
      (extract ⟨[], [], st, sa⟩ now).alertname = "Unknown" ∧
      (extract ⟨[], [], st, sa⟩ now).instanceName = "Unknown" ∧
      (extract ⟨[], [], st, sa⟩ now).severity = "UNKNOWN" ∧
      (extract ⟨[], [], st, sa⟩ now).description = "No description" ∧
      (extract ⟨[], [], st, sa⟩ now).value = "N/A" := by
  intro st sa now
  exact ⟨rfl, rfl, rfl, rfl, rfl⟩

/-! ## C7 — extraction purity -/

/-- C7 (counterexample): when the start timestamp is absent the code reads
`datetime.utcnow()` (app.py line 143), so two extractions of the same
alert at different wall-clock instants differ. -/
theorem C7_counterexample :
    extract ⟨[], [], some "firing", none⟩ "2024-01-01T00:00:00" ≠
      extract ⟨[], [], some "firing", none⟩ "2025-01-01T00:00:00" := by
  decide

/-- C7 (amended): field extraction is a deterministic, pure function of the
alert record whenever the start timestamp is present: the wall-clock reading
passed as `now` is then never consulted. -/
theorem C7_extract_deterministic :
    ∀ (labels ann : List (String × String)) (st : Option String)
      (s now₁ now₂ : String),
      extract ⟨labels, ann, st, some s⟩ now₁ =
        extract ⟨labels, ann, st, some s⟩ now₂ := by
  intro labels ann st s now₁ now₂
  rfl

/-! ## C8 — the value heuristic -/

/-- C8: the value field prefers an explicit annotation `value` verbatim
over any text scan; otherwise it is the first numeric token of the
description with its following unit (the fixed vocabulary `°C`, `%`,
`MHz`, `MB`, case-insensitively); when the scan finds nothing the value is
`N/A`, and the heuristic is total (never raises).  The claim's example:
"GPU usage is 92% on device 0" yields "92%". -/
theorem C8_value_heuristic :
    (∀ (ann : List (String × String)) (d v : String),
        ann.lookup "value" = some v → extractValue ann d = v) ∧
    extractValue [] "GPU usage is 92% on device 0" = "92%" ∧
    (∀ (ann : List (String × String)) (d : String),
        ann.lookup "value" = none → searchVal d.toList = none →
        extractValue ann d = "N/A") ∧
    extractValue [] "no reading available" = "N/A" := by
  refine ⟨?_, by decide, ?_, by decide⟩
  · intro ann d v h
    simp [extractValue, h]
  · intro ann d h₁ h₂
    simp only [String.toList] at h₂
    simp [extractValue, h₁, h₂]

/-! ## C4 — timestamp handling -/

/-- C4: the displayed time parses the start timestamp as ISO-8601,
accepting a trailing `Z` as UTC and fractional seconds of any length, and
formats it as `YYYY-MM-DD HH:MM:SS UTC`; on parse failure the raw input is
used verbatim and no error is raised (the formatter is a total function).
The claim's examples: `2024-03-01T12:00:00.123456Z` yields
`2024-03-01 12:00:00 UTC` and `not-a-date` yields `not-a-date`. -/
theorem C4_timestamp :
    (∀ ds : Str, ds ≠ [] → (∀ c ∈ ds, c.isDigit = true) →
        formatTimestamp (String.mk ("2024-03-01T12:00:00.".toList ++ ds ++ ['Z'])) =
          "2024-03-01 12:00:00 UTC") ∧
    formatTimestamp "2024-03-01T12:00:00.123456Z" = "2024-03-01 12:00:00 UTC" ∧
    formatTimestamp "not-a-date" = "not-a-date" ∧
    formatTimestamp "2024-02-30T01:02:03Z" = "2024-02-30T01:02:03Z" := by
  refine ⟨?_, by decide, by decide, by decide⟩
  intro ds hne hdig
  obtain ⟨c, ds', rfl⟩ := List.exists_cons_of_ne_nil hne
  have hdc : c.isDigit = true := hdig c (by simp)
  have hdZ : ∀ x ∈ c :: ds', x ≠ 'Z' := by
    intro x hx he
    subst he
    exact absurd (hdig _ hx) (by decide)
  have hrep : pyReplace (String.mk ("2024-03-01T12:00:00.".toList ++ (c :: ds') ++ ['Z']))
      "Z" "+00:00" =
      String.mk ("2024-03-01T12:00:00.".toList ++ ((c :: ds') ++ "+00:00".toList)) := by
    show String.mk (replaceAll ['Z'] "+00:00".toList
      ("2024-03-01T12:00:00.".toList ++ (c :: ds') ++ ['Z'])) = _
    rw [replaceAll_single, List.flatMap_append, List.flatMap_append]
    rw [flatMap_replace_id (by decide), flatMap_replace_id hdZ]
    simp
  have hpd : parseDate
      (String.mk ("2024-03-01T12:00:00.".toList ++ ((c :: ds') ++ "+00:00".toList))).toList =
      some (2024, 3, 1, 'T' :: ("12:00:00.".toList ++ ((c :: ds') ++ "+00:00".toList))) := rfl
  have hpt : parseTime ('1' :: '2' :: ':' :: '0' :: '0' :: ':' :: '0' :: '0' :: '.' :: c ::
      (ds' ++ ['+', '0', '0', ':', '0', '0'])) =
      some (12, 0, 0, ['+', '0', '0', ':', '0', '0']) := by
    have hd : ((c :: ds') ++ ['+', '0', '0', ':', '0', '0']).dropWhile Char.isDigit =
        ['+', '0', '0', ':', '0', '0'] := by
      rw [dropWhile_append_all _ hdig]
      rfl
    have h1 : parseNDigits 2 ('1' :: '2' :: ':' :: '0' :: '0' :: ':' :: '0' :: '0' :: '.' :: c ::
        (ds' ++ ['+', '0', '0', ':', '0', '0'])) =
        some (12, ':' :: '0' :: '0' :: ':' :: '0' :: '0' :: '.' :: c ::
          (ds' ++ ['+', '0', '0', ':', '0', '0'])) := rfl
    have h2 : parseNDigits 2 ('0' :: '0' :: ':' :: '0' :: '0' :: '.' :: c ::
        (ds' ++ ['+', '0', '0', ':', '0', '0'])) =
        some (0, ':' :: '0' :: '0' :: '.' :: c :: (ds' ++ ['+', '0', '0', ':', '0', '0'])) := rfl
    have h3 : parseNDigits 2 ('0' :: '0' :: '.' :: c :: (ds' ++ ['+', '0', '0', ':', '0', '0'])) =
        some (0, '.' :: c :: (ds' ++ ['+', '0', '0', ':', '0', '0'])) := rfl
    simp only [parseTime]
    simp only [List.cons_append, List.nil_append, String.toList] at hd h1 h2 h3 ⊢
    simp [h1, h2, h3, hd, hdc, expectChar]
  have hoff : parseOffset ['+', '0', '0', ':', '0', '0'] = some () := rfl
  have hfrom : fromisoformat
      (String.mk ("2024-03-01T12:00:00.".toList ++ ((c :: ds') ++ "+00:00".toList))) =
      some ⟨2024, 3, 1, 12, 0, 0⟩ := by
    simp only [fromisoformat, hpd, Option.bind_eq_bind, Option.some_bind]
    simp [hpt, hoff]
  simp only [formatTimestamp, hrep, hfrom]
  decide

/-- C4 (witness): the general fractional-seconds statement applied at a
seven-digit fraction. -/
theorem C4_timestamp_witness :
    formatTimestamp (String.mk ("2024-03-01T12:00:00.".toList ++
      ['1', '2', '3', '4', '5', '6', '7'] ++ ['Z'])) = "2024-03-01 12:00:00 UTC" :=
  C4_timestamp.1 ['1', '2', '3', '4', '5', '6', '7'] (by decide) (by decide)

/-! ## C6 — template resolution -/

/-- A substring survives mapping both strings. -/
theorem containsSub_map (f : Char → Char) {sub : Str} : ∀ {l : Str},
    containsSub sub l = true → containsSub (sub.map f) (l.map f) = true := by
  intro l
  induction l with
  | nil =>
    intro h
    simp only [containsSub, List.isEmpty_iff] at h ⊢
    simp [h]
  | cons c rest ih =>
    intro h
    simp only [containsSub, Bool.or_eq_true] at h ⊢
    rcases h with h | h
    · left
      have hp := List.isPrefixOf_iff_prefix.mp h
      exact List.isPrefixOf_iff_prefix.mpr (by simpa using hp.map f)
    · right
      exact ih h

/-- A cased substring test implies the case-insensitive one (used to show
the code's redundant cased disjuncts add nothing). -/
theorem pyIn_to_ciIn {sub sub' s : String}
    (hsub : sub.toList.map Char.toLower = sub'.toList)
    (h : pyIn sub s = true) : ciIn sub' s = true := by
  have hm := @containsSub_map Char.toLower sub.toList s.toList h
  rw [hsub] at hm
  exact hm

/-- A failing case-insensitive test refutes the cased test too. -/
theorem pyIn_false_of_ci {sub sub' s : String}
    (hsub : sub.toList.map Char.toLower = sub'.toList)
    (h : pyIn sub' (pyLower s) = false) : pyIn sub s = false := by
  cases hh : pyIn sub s
  · rfl
  · have hc : ciIn sub' s = true := pyIn_to_ciIn hsub hh
    have hc' : pyIn sub' (pyLower s) = true := hc
    rw [h] at hc'
    exact absurd hc' (by simp)

/-- Split a false disjunction of Booleans. -/
theorem bor_false_split {a b : Bool} (h : (a || b) = false) :
    a = false ∧ b = false := by
  cases a <;> cases b <;> simp_all

/-- Split a true disjunction of Booleans. -/
theorem bor_true_split {a b : Bool} (h : (a || b) = true) :
    a = true ∨ b = true := by
  cases a <;> cases b <;> simp_all

/-- `get_default_template` on a name outside the exact-name table falls to
the type table. -/
theorem get_default_no_name (name ty : String)
    (h1 : name ≠ "HighTemperature") (h2 : name ≠ "CPUCoreImbalance")
    (h3 : name ≠ "HighGPUUsage") (h4 : name ≠ "HighRAMUsage") :
    get_default_template name ty =
      match type_defaults.lookup ty with
      | some t => t
      | none => tmpl_generic := by
  unfold get_default_template defaults
  simp [List.lookup, beq_eq_false_iff_ne.mpr h1, beq_eq_false_iff_ne.mpr h2,
    beq_eq_false_iff_ne.mpr h3, beq_eq_false_iff_ne.mpr h4]

/-- C6 (counterexample): the claim says every category keyword is matched
case-insensitively; for the keyword "core" the code tests the
case-sensitive substring `Core` (app.py line 315), so an alert named
`core_overload` with no category label resolves to the generic fallback,
not the cpu-category template. -/
theorem C6_counterexample :
    ciIn "core" "core_overload" = true ∧
    getD [] "alert_type" "" = "" ∧
    load_template "core_overload" (template_type [] "core_overload") = tmpl_generic ∧
    tmpl_generic ≠ tmpl_cpu := by
  refine ⟨by decide, rfl, rfl, ?_⟩
  intro h
  have h0 := congrArg (fun s => s.toList.head?) h
  exact absurd h0 (by decide)

/-- C6 (amended): template resolution never fails and follows the lookup
order — exact alert-name match first (the four built-in names, whatever the
inferred type), then the explicit `alert_type` label when truthy, then
case-insensitive substring inference over the alert name in priority order
temperature > cpu > gpu > ram, where the extra keyword `Core` (cpu
category) is matched case-sensitively; when nothing matches, the generic
fallback. -/
theorem C6_template_resolution :
    (∀ ty, load_template "HighTemperature" ty = tmpl_temperature) ∧
    (∀ ty, load_template "CPUCoreImbalance" ty = tmpl_cpu) ∧
    (∀ ty, load_template "HighGPUUsage" ty = tmpl_gpu) ∧
    (∀ ty, load_template "HighRAMUsage" ty = tmpl_ram) ∧
    (∀ (labels : List (String × String)) (name : String),
        getD labels "alert_type" "" ≠ "" →
        template_type labels name = getD labels "alert_type" "") ∧
    (∀ (labels : List (String × String)) (name : String),
        getD labels "alert_type" "" = "" →
        (ciIn "temperature" name = true →
            load_template name (template_type labels name) = tmpl_temperature) ∧
        (ciIn "temperature" name = false →
            (ciIn "cpu" name || pyIn "Core" name) = true →
            load_template name (template_type labels name) = tmpl_cpu) ∧
        (ciIn "temperature" name = false →
            (ciIn "cpu" name || pyIn "Core" name) = false →
            ciIn "gpu" name = true →
            load_template name (template_type labels name) = tmpl_gpu) ∧
        (ciIn "temperature" name = false →
            (ciIn "cpu" name || pyIn "Core" name) = false →
            ciIn "gpu" name = false → ciIn "ram" name = true →
            load_template name (template_type labels name) = tmpl_ram) ∧
        (ciIn "temperature" name = false →
            (ciIn "cpu" name || pyIn "Core" name) = false →
            ciIn "gpu" name = false → ciIn "ram" name = false →
            load_template name (template_type labels name) = tmpl_generic)) := by
  refine ⟨fun ty => rfl, fun ty => rfl, fun ty => rfl, fun ty => rfl, ?_, ?_⟩
  · intro labels name h
    simp [template_type, h]
  intro labels name hlab
  refine ⟨?_, ?_, ?_, ?_, ?_⟩
  · -- temperature
    intro hT
    have hT' : pyIn "temperature" (pyLower name) = true := hT
    have htt : template_type labels name = "temperature" := by
      simp [template_type, hlab, hT']
    rw [htt]
    by_cases e1 : name = "HighTemperature"
    · subst e1; rfl
    by_cases e2 : name = "CPUCoreImbalance"
    · subst e2; exact absurd hT (by decide)
    by_cases e3 : name = "HighGPUUsage"
    · subst e3; exact absurd hT (by decide)
    by_cases e4 : name = "HighRAMUsage"
    · subst e4; exact absurd hT (by decide)
    rw [show load_template name "temperature" =
        get_default_template name "temperature" from rfl,
      get_default_no_name name _ e1 e2 e3 e4]
    rfl
  · -- cpu
    intro hTf hcpu
    have hT' : pyIn "temperature" (pyLower name) = false := hTf
    have hA : pyIn "Temperature" name = false := pyIn_false_of_ci (by decide) hT'
    have hcond2 : (pyIn "CPU" name || pyIn "cpu" (pyLower name) || pyIn "Core" name) = true := by
      rcases bor_true_split hcpu with h | h
      · have : pyIn "cpu" (pyLower name) = true := h
        simp [this]
      · simp [h]
    have htt : template_type labels name = "cpu" := by
      simp only [template_type, hlab]
      simp [hA, hT', hcond2]
    rw [htt]
    by_cases e1 : name = "HighTemperature"
    · subst e1; exact absurd hcpu (by decide)
    by_cases e2 : name = "CPUCoreImbalance"
    · subst e2; rfl
    by_cases e3 : name = "HighGPUUsage"
    · subst e3; exact absurd hcpu (by decide)
    by_cases e4 : name = "HighRAMUsage"
    · subst e4; exact absurd hcpu (by decide)
    rw [show load_template name "cpu" = get_default_template name "cpu" from rfl,
      get_default_no_name name _ e1 e2 e3 e4]
    rfl
  · -- gpu
    intro hTf hcpuF hgpu
    have hT' : pyIn "temperature" (pyLower name) = false := hTf
    rcases bor_false_split hcpuF with ⟨hcpuf, hCoref⟩
    have hcpu' : pyIn "cpu" (pyLower name) = false := hcpuf
    have hA : pyIn "Temperature" name = false := pyIn_false_of_ci (by decide) hT'
    have hB : pyIn "CPU" name = false := pyIn_false_of_ci (by decide) hcpu'
    have hgpu' : pyIn "gpu" (pyLower name) = true := hgpu
    have htt : template_type labels name = "gpu" := by
      simp only [template_type, hlab]
      simp [hA, hT', hB, hcpu', hCoref, hgpu']
    rw [htt]
    by_cases e1 : name = "HighTemperature"
    · subst e1; exact absurd hgpu (by decide)
    by_cases e2 : name = "CPUCoreImbalance"
    · subst e2; exact absurd hgpu (by decide)
    by_cases e3 : name = "HighGPUUsage"
    · subst e3; rfl
    by_cases e4 : name = "HighRAMUsage"
    · subst e4; exact absurd hgpu (by decide)
    rw [show load_template name "gpu" = get_default_template name "gpu" from rfl,
      get_default_no_name name _ e1 e2 e3 e4]
    rfl
  · -- ram
    intro hTf hcpuF hgpuF hram
    have hT' : pyIn "temperature" (pyLower name) = false := hTf
    rcases bor_false_split hcpuF with ⟨hcpuf, hCoref⟩
    have hcpu' : pyIn "cpu" (pyLower name) = false := hcpuf
    have hgpu' : pyIn "gpu" (pyLower name) = false := hgpuF
    have hA : pyIn "Temperature" name = false := pyIn_false_of_ci (by decide) hT'
    have hB : pyIn "CPU" name = false := pyIn_false_of_ci (by decide) hcpu'
    have hC : pyIn "GPU" name = false := pyIn_false_of_ci (by decide) hgpu'
    have hram' : pyIn "ram" (pyLower name) = true := hram
    have htt : template_type labels name = "ram" := by
      simp only [template_type, hlab]
      simp [hA, hT', hB, hcpu', hCoref, hC, hgpu', hram']
    rw [htt]
    by_cases e1 : name = "HighTemperature"
    · subst e1; exact absurd hram (by decide)
    by_cases e2 : name = "CPUCoreImbalance"
    · subst e2; exact absurd hram (by decide)
    by_cases e3 : name = "HighGPUUsage"
    · subst e3; exact absurd hram (by decide)
    by_cases e4 : name = "HighRAMUsage"
    · subst e4; rfl
    rw [show load_template name "ram" = get_default_template name "ram" from rfl,
      get_default_no_name name _ e1 e2 e3 e4]
    rfl
  · -- generic fallback
    intro hTf hcpuF hgpuF hramF
    have hT' : pyIn "temperature" (pyLower name) = false := hTf
    rcases bor_false_split hcpuF with ⟨hcpuf, hCoref⟩
    have hcpu' : pyIn "cpu" (pyLower name) = false := hcpuf
    have hgpu' : pyIn "gpu" (pyLower name) = false := hgpuF
    have hram' : pyIn "ram" (pyLower name) = false := hramF
    have hA : pyIn "Temperature" name = false := pyIn_false_of_ci (by decide) hT'
    have hB : pyIn "CPU" name = false := pyIn_false_of_ci (by decide) hcpu'
    have hC : pyIn "GPU" name = false := pyIn_false_of_ci (by decide) hgpu'
    have hD : pyIn "RAM" name = false := pyIn_false_of_ci (by decide) hram'
    have hE : pyIn "Ram" name = false := pyIn_false_of_ci (by decide) hram'
    have htt : template_type labels name = "default" := by
      simp only [template_type, hlab]
      simp [hA, hT', hB, hcpu', hCoref, hC, hgpu', hD, hram', hE]
    rw [htt]
    by_cases e1 : name = "HighTemperature"
    · subst e1; exact absurd hTf (by decide)
    by_cases e2 : name = "CPUCoreImbalance"
    · subst e2; exact absurd hcpuF (by decide)
    by_cases e3 : name = "HighGPUUsage"
    · subst e3; exact absurd hgpuF (by decide)
    by_cases e4 : name = "HighRAMUsage"
    · subst e4; exact absurd hramF (by decide)
    rw [show load_template name "default" = get_default_template name "default" from rfl,
      get_default_no_name name _ e1 e2 e3 e4]
    rfl

/-! ## C3 — delivery attempts and the formatting fallback -/

/-- C3: for each delivery target the first request uses the provider's rich
formatting mode (`parse_mode: Markdown`) with the unmodified text; exactly
one retry — with the markup characters `*` and `_` stripped and no
formatting mode — happens if and only if the provider answers the first
attempt with a success HTTP status, `ok: false` and a description
containing "parse"; a successful retry is recorded as delivered
(`sentPlain`); a network exception, an HTTP error status, or a non-parse
API error is recorded as a failure for that target with no retry; and
`send_telegram_message` records exactly these per-target outcomes. -/
theorem C3_delivery_fallback :
    ∀ (provider : Provider) (message chat : String),
      (firstReq message chat).parse_mode = some "Markdown" ∧
      (firstReq message chat).text = message ∧
      (sendOne provider message chat).2.head? = some (firstReq message chat) ∧
      ((sendOne provider message chat).2 =
          [firstReq message chat, retryReq message chat] ↔
        ∃ d, provider (firstReq message chat) = ProviderResp.reply true false d ∧
          pyIn "parse" (pyLower d) = true) ∧
      (retryReq message chat).text = stripMarkup message ∧
      (retryReq message chat).parse_mode = none ∧
      (∀ d d₂, provider (firstReq message chat) = ProviderResp.reply true false d →
          pyIn "parse" (pyLower d) = true →
          provider (retryReq message chat) = ProviderResp.reply true true d₂ →
          sendOne provider message chat =
            (ChatOutcome.sentPlain, [firstReq message chat, retryReq message chat])) ∧
      (provider (firstReq message chat) = ProviderResp.exn →
          sendOne provider message chat = (ChatOutcome.failed, [firstReq message chat])) ∧
      (∀ ok d, provider (firstReq message chat) = ProviderResp.reply false ok d →
          sendOne provider message chat = (ChatOutcome.failed, [firstReq message chat])) ∧
      (∀ d, provider (firstReq message chat) = ProviderResp.reply true false d →
          pyIn "parse" (pyLower d) = false →
          sendOne provider message chat = (ChatOutcome.failed, [firstReq message chat])) ∧
      (∀ d, provider (firstReq message chat) = ProviderResp.reply true true d →
          sendOne provider message chat =
            (ChatOutcome.sentMarkdown, [firstReq message chat])) ∧
      (send_telegram_message demoConfig provider message).outcomes =
        [("42", (sendOne provider message "42").1)] := by
  intro provider message chat
  refine ⟨rfl, rfl, ?_, ⟨?_, ?_⟩, rfl, rfl, ?_, ?_, ?_, ?_, ?_, ?_⟩
  · -- the first request always opens the trace
    cases hr : provider (firstReq message chat) with
    | exn => simp [sendOne, hr]
    | reply httpOk ok d =>
      cases httpOk <;> cases ok <;>
        by_cases hp : pyIn "parse" (pyLower d) = true <;>
          cases hq : provider (retryReq message chat) <;>
            simp [sendOne, hr, hp, hq] <;> split <;> simp
  · -- a two-request trace only after a parse rejection
    intro h
    cases hr : provider (firstReq message chat) with
    | exn => simp [sendOne, hr] at h
    | reply httpOk ok d =>
      cases httpOk with
      | false => simp [sendOne, hr] at h
      | true =>
        cases ok with
        | true => simp [sendOne, hr] at h
        | false =>
          by_cases hp : pyIn "parse" (pyLower d) = true
          · exact ⟨d, rfl, hp⟩
          · simp [sendOne, hr, hp] at h
  · -- a parse rejection always retries exactly once
    rintro ⟨d, hr, hp⟩
    cases hq : provider (retryReq message chat) with
    | exn => simp [sendOne, hr, hp, hq]
    | reply h2 ok2 d2 =>
      cases h2 <;> cases ok2 <;> simp [sendOne, hr, hp, hq]
  · intro d d₂ hr hp hr2
    simp [sendOne, hr, hp, hr2]
  · intro hr
    simp [sendOne, hr]
  · intro ok d hr
    simp [sendOne, hr]
  · intro d hr hp
    simp [sendOne, hr, hp]
  · intro d hr
    simp [sendOne, hr]
  · rfl

/-! ## C1, C2, C10 — the webhook endpoint -/

/-- `filterMap` by an everywhere-`some` function is a `map`. -/
theorem filterMap_eq_map_of_some {α β : Type} {f : α → Option β} {g : α → β}
    (h : ∀ a, f a = some (g a)) : ∀ l : List α, l.filterMap f = l.map g := by
  intro l
  induction l with
  | nil => rfl
  | cons a t ih => simp [List.filterMap_cons, h a, ih]

/-- C1 (counterexample): the skip check reads the batch-level status
(app.py line 303), not each alert's own status: in a firing batch of three
alerts where only alert #2 has status "resolved" and the flag is false, all
three alerts get delivery attempts, not just #1 and #3. -/
theorem C1_counterexample :
    (webhook demoConfig okProvider "2024-01-01T00:00:00"
        (ParsedBody.obj ⟨true,
          [⟨[("alertname", "A1")], [], some "firing", some "T1"⟩,
           ⟨[("alertname", "A2")], [], some "resolved", some "T2"⟩,
           ⟨[("alertname", "A3")], [], some "firing", some "T3"⟩],
          true, "firing", false⟩)).deliveries.map (fun d => d.alert_name) =
      ["A1", "A2", "A3"] ∧
    ["A1", "A2", "A3"] ≠ ["A1", "A3"] ∧
    (webhook demoConfig okProvider "2024-01-01T00:00:00"
        (ParsedBody.obj ⟨true,
          [⟨[("alertname", "A1")], [], some "firing", some "T1"⟩,
           ⟨[("alertname", "A2")], [], some "resolved", some "T2"⟩,
           ⟨[("alertname", "A3")], [], some "firing", some "T3"⟩],
          true, "firing", false⟩)).alertsCount = some 3 := by
  refine ⟨rfl, by decide, rfl⟩

/-- C1 (amended): the skip decision is made from the batch-level status
field, the same for every alert of the batch: if the batch status is
"resolved" and the "send resolved alerts" flag is false, every alert of the
batch is skipped (no delivery record), otherwise every alert is processed;
the endpoint always reports the full count of alerts received. -/
theorem C1_skip_policy :
    ∀ (cfg : TelegramConfig) (provider : Provider) (now : String) (b : Batch),
      b.truthy = true →
      (webhook cfg provider now (ParsedBody.obj b)).alertsCount =
        some (if b.hasAlerts then b.alerts else []).length ∧
      (webhook cfg provider now (ParsedBody.obj b)).deliveries.map
          (fun d => d.alert_name) =
        (if (if b.hasStatus then b.statusText else "unknown") = "resolved" ∧
            cfg.sendResolved = false then ([] : List String)
         else (if b.hasAlerts then b.alerts else []).map
            (fun a => getD a.labels "alertname" "Unknown")) := by
  intro cfg provider now b hb
  constructor
  · simp [webhook, hb]
  · by_cases hskip : (if b.hasStatus then b.statusText else "unknown") = "resolved" ∧
        cfg.sendResolved = false
    · rw [if_pos hskip]
      have hnone : ∀ a, processAlert cfg provider now
          (if b.hasStatus then b.statusText else "unknown") a = none := by
        intro a
        simp [processAlert, hskip.1, hskip.2]
      simp [webhook, hb, List.filterMap_eq_nil_iff.mpr (fun a _ => hnone a)]
    · rw [if_neg hskip]
      have hcond : (decide ((if b.hasStatus then b.statusText else "unknown") = "resolved") &&
          !cfg.sendResolved) = false := by
        rcases not_and_or.mp hskip with h | h
        · simp [h]
        · have hx : cfg.sendResolved = true := by
            revert h
            cases cfg.sendResolved <;> simp
          simp [hx]
      have hsome : ∀ a, processAlert cfg provider now
          (if b.hasStatus then b.statusText else "unknown") a =
          some ⟨getD a.labels "alertname" "Unknown",
            render_template
              (load_template (getD a.labels "alertname" "Unknown")
                (template_type a.labels (getD a.labels "alertname" "Unknown"))) a now,
            send_telegram_message cfg provider
              (render_template
                (load_template (getD a.labels "alertname" "Unknown")
                  (template_type a.labels (getD a.labels "alertname" "Unknown"))) a now)⟩ := by
        intro a
        simp only [processAlert, hcond, Bool.false_eq_true, if_false]
      simp [webhook, hb, filterMap_eq_map_of_some hsome, List.map_map]

/-- C1 (witness): the amended statement applied to a concrete resolved
batch with the flag off — every alert is skipped while the count is still
reported. -/
theorem C1_skip_policy_witness :
    (webhook demoConfig okProvider "2024-01-01T00:00:00"
        (ParsedBody.obj ⟨true, [⟨[("alertname", "A1")], [], some "resolved", some "T1"⟩],
          true, "resolved", false⟩)).alertsCount = some 1 ∧
    (webhook demoConfig okProvider "2024-01-01T00:00:00"
        (ParsedBody.obj ⟨true, [⟨[("alertname", "A1")], [], some "resolved", some "T1"⟩],
          true, "resolved", false⟩)).deliveries.map (fun d => d.alert_name) = [] := by
  have h := C1_skip_policy demoConfig okProvider "2024-01-01T00:00:00"
    ⟨true, [⟨[("alertname", "A1")], [], some "resolved", some "T1"⟩],
      true, "resolved", false⟩ rfl
  exact ⟨h.1, by rw [h.2]; rfl⟩

/-- C2 (counterexample): a body whose JSON parsing raises is answered with
500 (the outer `except` of app.py line 334), a server error, not the
claimed client-error code; and the parseable JSON object `\x7b\x7d` (falsy
in Python) is answered with 400, not the claimed success-with-count. -/
theorem C2_counterexample :
    (webhook demoConfig okProvider "now" ParsedBody.parseError).code = 500 ∧
    ¬(400 ≤ (webhook demoConfig okProvider "now" ParsedBody.parseError).code ∧
        (webhook demoConfig okProvider "now" ParsedBody.parseError).code < 500) ∧
    (webhook demoConfig okProvider "now"
        (ParsedBody.obj ⟨false, [], false, "", false⟩)).code = 400 ∧
    (webhook demoConfig okProvider "now"
        (ParsedBody.obj ⟨false, [], false, "", false⟩)).okBody = false := by
  exact ⟨rfl, by decide, rfl, rfl⟩

/-- C2 (amended): a request body whose parsing raises is rejected with 500
and a falsy parsed body (empty JSON object or `null`) with 400, in both
cases without any pipeline work (no per-alert record); every truthy
parseable JSON object yields 200 with the number of alerts seen, so no
error arising during per-alert processing or delivery (configuration gap,
template lookup, send failure) escapes as a non-success response. -/
theorem C2_endpoint_errors :
    ∀ (cfg : TelegramConfig) (provider : Provider) (now : String),
      webhook cfg provider now ParsedBody.parseError = ⟨500, false, none, []⟩ ∧
      (∀ b : Batch, b.truthy = false →
          webhook cfg provider now (ParsedBody.obj b) = ⟨400, false, none, []⟩) ∧
      (∀ b : Batch, b.truthy = true →
          (webhook cfg provider now (ParsedBody.obj b)).code = 200 ∧
          (webhook cfg provider now (ParsedBody.obj b)).okBody = true ∧
          (webhook cfg provider now (ParsedBody.obj b)).alertsCount =
            some (if b.hasAlerts then b.alerts else []).length) := by
  intro cfg provider now
  refine ⟨rfl, ?_, ?_⟩
  · intro b hb
    simp [webhook, hb]
  · intro b hb
    exact ⟨by simp [webhook, hb], by simp [webhook, hb], by simp [webhook, hb]⟩

/-- C10 (counterexample): the empty JSON object has no `alerts` key, is
parseable, and the claim says it yields success with a count of 0; the
code's falsy-body check rejects it with 400 instead. -/
theorem C10_counterexample :
    webhook demoConfig okProvider "now"
        (ParsedBody.obj ⟨false, [], false, "", false⟩) = ⟨400, false, none, []⟩ ∧
    (400 : Nat) ≠ 200 := by
  exact ⟨rfl, by decide⟩

/-- C10 (amended): for every truthy parseable JSON object body in which
the `alerts` key is absent or maps to an empty array, the webhook performs
no per-alert work and returns success with a count of 0; the empty object,
being falsy, is instead rejected with 400 before any pipeline work. -/
theorem C10_empty_alerts :
    ∀ (cfg : TelegramConfig) (provider : Provider) (now : String) (b : Batch),
      b.truthy = true → (b.hasAlerts = false ∨ b.alerts = []) →
      webhook cfg provider now (ParsedBody.obj b) = ⟨200, true, some 0, []⟩ := by
  intro cfg provider now b hb h
  have hal : (if b.hasAlerts then b.alerts else []) = [] := by
    rcases h with h | h
    · simp [h]
    · simp [h]
  simp [webhook, hb, hal]

/-- C10 (witness): a body carrying only a status key. -/
theorem C10_empty_alerts_witness :
    webhook demoConfig okProvider "now"
        (ParsedBody.obj ⟨false, [], true, "firing", false⟩) = ⟨200, true, some 0, []⟩ :=
  C10_empty_alerts demoConfig okProvider "now"
    ⟨false, [], true, "firing", false⟩ rfl (Or.inl rfl)

/-! ## C9 — the placeholder safety pass

The heart of the claim: after `re.sub(r'\{\{[^}]+\}\}', 'N/A', ·)` no
match of the pattern survives anywhere in the output. -/

/-- `notRb` in propositional form. -/
theorem notRb_true_iff {c : Char} : notRb c = true ↔ c ≠ rb := by
  simp [notRb]

/-- `tokHead` on the empty list. -/
theorem tokHead_nil : tokHead [] = none := rfl

/-- `tokHead` on a single character. -/
theorem tokHead_single (c : Char) : tokHead [c] = none := rfl

/-- `tokHead` with at least two characters, unfolded. -/
theorem tokHead_cons₂ (c1 c2 : Char) (rest : Str) :
    tokHead (c1 :: c2 :: rest) =
      if c1 = lb ∧ c2 = lb ∧ rest.takeWhile notRb ≠ [] then
        match rest.dropWhile notRb with
        | _ :: d2 :: tail => if d2 = rb then some tail else none
        | _ => none
      else none := rfl

/-- Match lengths: a consumed token is at least five characters. -/
theorem tokHead_len {l tail : Str} (h : tokHead l = some tail) :
    tail.length + 4 ≤ l.length := by
  cases l with
  | nil => rw [tokHead_nil] at h; exact absurd h (by simp)
  | cons c1 l1 =>
    cases l1 with
    | nil => rw [tokHead_single] at h; exact absurd h (by simp)
    | cons c2 rest =>
      rw [tokHead_cons₂] at h
      by_cases hc : c1 = lb ∧ c2 = lb ∧ rest.takeWhile notRb ≠ []
      · rw [if_pos hc] at h
        cases hdw : rest.dropWhile notRb with
        | nil => rw [hdw] at h; simp at h
        | cons d1 dt =>
          cases dt with
          | nil => rw [hdw] at h; simp at h
          | cons d2 t2 =>
            rw [hdw] at h
            replace h : (if d2 = rb then some t2 else none) = some tail := h
            by_cases hd2 : d2 = rb
            · rw [if_pos hd2] at h
              have ht : t2 = tail := by injection h
              subst ht
              have hlen := congrArg List.length
                (List.takeWhile_append_dropWhile notRb rest)
              rw [List.length_append, hdw] at hlen
              simp only [List.length_cons] at hlen ⊢
              omega
            · rw [if_neg hd2] at h
              simp at h
      · rw [if_neg hc] at h
        simp at h

/-- The match at the head of `l`, characterized. -/
theorem tokHead_some_iff {l tail : Str} :
    tokHead l = some tail ↔
      ∃ r, l = lb :: lb :: (r ++ rb :: rb :: tail) ∧ r ≠ [] ∧ rb ∉ r := by
  constructor
  · intro h
    cases l with
    | nil => rw [tokHead_nil] at h; exact absurd h (by simp)
    | cons c1 l1 =>
      cases l1 with
      | nil => rw [tokHead_single] at h; exact absurd h (by simp)
      | cons c2 rest =>
        rw [tokHead_cons₂] at h
        by_cases hc : c1 = lb ∧ c2 = lb ∧ rest.takeWhile notRb ≠ []
        · rw [if_pos hc] at h
          cases hdw : rest.dropWhile notRb with
          | nil => rw [hdw] at h; simp at h
          | cons d1 dt =>
            cases dt with
            | nil => rw [hdw] at h; simp at h
            | cons d2 t2 =>
              rw [hdw] at h
              replace h : (if d2 = rb then some t2 else none) = some tail := h
              by_cases hd2 : d2 = rb
              · rw [if_pos hd2] at h
                have ht : t2 = tail := by injection h
                subst ht
                subst hd2
                have hd1 : d1 = rb := by
                  have := dropWhile_head_false hdw
                  simpa [notRb] using this
                subst hd1
                refine ⟨rest.takeWhile notRb, ?_, hc.2.2, ?_⟩
                · rw [hc.1, hc.2.1]
                  have : rest = rest.takeWhile notRb ++ rest.dropWhile notRb :=
                    (List.takeWhile_append_dropWhile notRb rest).symm
                  rw [hdw] at this
                  exact congrArg (fun z => lb :: lb :: z) this
                · intro hmem
                  have := List.mem_takeWhile_imp hmem
                  simp [notRb] at this
              · rw [if_neg hd2] at h
                simp at h
        · rw [if_neg hc] at h
          simp at h
  · rintro ⟨r, rfl, hrne, hrb⟩
    have hall : ∀ x ∈ r, notRb x = true := fun x hx =>
      notRb_true_iff.mpr (fun he => hrb (he ▸ hx))
    have htw : (r ++ rb :: rb :: tail).takeWhile notRb = r := by
      rw [takeWhile_append_all _ hall]
      simp [List.takeWhile_cons, notRb]
    have hdw : (r ++ rb :: rb :: tail).dropWhile notRb = rb :: rb :: tail := by
      rw [dropWhile_append_all _ hall]
      simp [List.dropWhile_cons, notRb]
    rw [tokHead_cons₂, if_pos ⟨rfl, rfl, by rw [htw]; exact hrne⟩, hdw]
    simp

/-- Fuel does not matter once it covers the length. -/
theorem subAllF_irrel : ∀ (n₁ n₂ : Nat) (l : Str),
    l.length ≤ n₁ → l.length ≤ n₂ → subAllF n₁ l = subAllF n₂ l := by
  intro n₁
  induction n₁ with
  | zero =>
    intro n₂ l h₁ h₂
    have : l = [] := List.length_eq_zero.mp (Nat.le_zero.mp h₁)
    subst this
    cases n₂ <;> rfl
  | succ n ih =>
    intro n₂ l h₁ h₂
    cases l with
    | nil => cases n₂ <;> rfl
    | cons c rest =>
      cases n₂ with
      | zero => simp at h₂
      | succ m =>
        simp only [subAllF]
        cases htk : tokHead (c :: rest) with
        | some tail =>
          have hlen := tokHead_len htk
          simp only [List.length_cons] at hlen h₁ h₂
          show 'N' :: '/' :: 'A' :: subAllF n tail = 'N' :: '/' :: 'A' :: subAllF m tail
          rw [ih m tail (by omega) (by omega)]
        | none =>
          show c :: subAllF n rest = c :: subAllF m rest
          simp only [List.length_cons] at h₁ h₂
          rw [ih m rest (by omega) (by omega)]

/-- One scan step of `subAll`. -/
theorem subAll_cons (c : Char) (rest : Str) :
    subAll (c :: rest) =
      match tokHead (c :: rest) with
      | some tail => 'N' :: '/' :: 'A' :: subAll tail
      | none => c :: subAll rest := by
  show subAllF (rest.length + 1) (c :: rest) = _
  simp only [subAllF]
  cases htk : tokHead (c :: rest) with
  | some tail =>
    have hlen := tokHead_len htk
    simp only [List.length_cons] at hlen
    show 'N' :: '/' :: 'A' :: subAllF rest.length tail = 'N' :: '/' :: 'A' :: subAll tail
    exact congrArg (fun z => 'N' :: '/' :: 'A' :: z)
      (subAllF_irrel rest.length tail.length tail (by omega) le_rfl)
  | none => rfl

/-- The head of a scanned string is the input's head or the `N` of an
inserted `N/A`. -/
theorem subAll_head {l : Str} {c : Char} {t : Str} (h : subAll l = c :: t) :
    l.head? = some c ∨ c = 'N' := by
  cases l with
  | nil => simp [subAll, subAllF] at h
  | cons x rest =>
    rw [subAll_cons] at h
    cases htk : tokHead (x :: rest) with
    | some tail =>
      rw [htk] at h
      injection h with h1 _
      exact Or.inr h1.symm
    | none =>
      rw [htk] at h
      injection h with h1 _
      exact Or.inl (congrArg some h1)

/-- Any clean `}}`-decomposition of the scan's output pulls back to one of
the input: the interior the output shows was already closed in the input. -/
theorem subAll_decomp : ∀ (n : Nat) (x : Str), x.length ≤ n →
    ∀ {r b : Str}, subAll x = r ++ rb :: rb :: b → rb ∉ r →
    ∃ r' b', x = r' ++ rb :: rb :: b' ∧ rb ∉ r' ∧ (r ≠ [] → r' ≠ []) := by
  intro n
  induction n with
  | zero =>
    intro x hx r b heq hrb
    have : x = [] := List.length_eq_zero.mp (Nat.le_zero.mp hx)
    subst this
    simp [subAll, subAllF] at heq
  | succ n ih =>
    intro x hx r b heq hrb
    cases x with
    | nil =>
      simp [subAll, subAllF] at heq
    | cons c rest =>
      rw [subAll_cons] at heq
      cases htk : tokHead (c :: rest) with
      | some tail =>
        rcases tokHead_some_iff.mp htk with ⟨q, hx', hqne, hqrb⟩
        refine ⟨lb :: lb :: q, tail, ?_, ?_, fun _ => by simp⟩
        · rw [hx']
          simp
        · intro hmem
          simp only [List.mem_cons] at hmem
          rcases hmem with h | h | h
          · exact absurd h.symm (by decide)
          · exact absurd h.symm (by decide)
          · exact hqrb h
      | none =>
        rw [htk] at heq
        cases r with
        | nil =>
          simp only [List.nil_append] at heq
          injection heq with h1 h2
          subst h1
          rcases subAll_head h2 with hh | hh
          · cases rest with
            | nil => simp at hh
            | cons y rest₂ =>
              simp only [List.head?_cons, Option.some_inj] at hh
              subst hh
              exact ⟨[], rest₂, by simp, by simp, fun hcon => absurd rfl hcon⟩
          · exact absurd hh (by decide)
        | cons rc r₂ =>
          injection heq with h1 h2
          subst h1
          have hrb₂ : rb ∉ r₂ := fun hm => hrb (List.mem_cons_of_mem _ hm)
          have hlen : rest.length ≤ n := by
            simp only [List.length_cons] at hx
            omega
          rcases ih rest hlen h2 hrb₂ with ⟨r', b', hx', hr', _⟩
          refine ⟨c :: r', b', ?_, ?_, fun _ => by simp⟩
          · rw [hx']
            simp
          · intro hmem
            simp only [List.mem_cons] at hmem
            rcases hmem with h | h
            · exact hrb (by simp [h])
            · exact hr' h

/-- A token's first character is an opening brace. -/
theorem tokAtP_head {m : Str} (h : tokAtP m) : m.head? = some lb := by
  rcases h with ⟨r, b, rfl, _, _⟩
  rfl

/-- The scan's output never contains a token. -/
theorem subAll_no_tok : ∀ (n : Nat) (l : Str), l.length ≤ n →
    ¬ hasTok (subAll l) := by
  intro n
  induction n with
  | zero =>
    intro l hl
    have : l = [] := List.length_eq_zero.mp (Nat.le_zero.mp hl)
    subst this
    simp [subAll, subAllF, hasTok]
  | succ n ih =>
    intro l hl
    cases l with
    | nil => simp [subAll, subAllF, hasTok]
    | cons c rest =>
      rw [subAll_cons]
      cases htk : tokHead (c :: rest) with
      | some tail =>
        have hlen := tokHead_len htk
        simp only [List.length_cons] at hlen hl
        intro h
        rcases h with h | h | h | h
        · have hh := tokAtP_head h
          simp only [List.head?_cons, Option.some_inj] at hh
          exact absurd hh (by decide)
        · have hh := tokAtP_head h
          simp only [List.head?_cons, Option.some_inj] at hh
          exact absurd hh (by decide)
        · have hh := tokAtP_head h
          simp only [List.head?_cons, Option.some_inj] at hh
          exact absurd hh (by decide)
        · exact ih tail (by omega) h
      | none =>
        intro h
        rcases h with h | h
        · -- a token at the head of the output
          rcases h with ⟨r, b, heq, hrne, hrb⟩
          injection heq with h1 h2
          subst h1
          -- the output continues with a brace, so the input does too
          have hrest : rest.head? = some lb := by
            rcases subAll_head (c := lb) (t := r ++ rb :: rb :: b) h2 with hh | hh
            · exact hh
            · exact absurd hh (by decide)
          cases rest with
          | nil => simp at hrest
          | cons y rest₂ =>
            simp only [List.head?_cons, Option.some_inj] at hrest
            subst hrest
            rw [subAll_cons] at h2
            cases htk2 : tokHead (lb :: rest₂) with
            | some t =>
              rw [htk2] at h2
              injection h2 with hN _
              exact absurd hN (by decide)
            | none =>
              rw [htk2] at h2
              injection h2 with _ h3
              rcases subAll_decomp rest₂.length rest₂ le_rfl h3 hrb with
                ⟨r', b', hx, hr', himp⟩
              have : tokHead (lb :: lb :: rest₂) = some b' :=
                tokHead_some_iff.mpr ⟨r', by rw [hx], himp hrne, hr'⟩
              rw [htk] at this
              exact absurd this (by simp)
        · exact ih rest (by simp only [List.length_cons] at hl; omega) h

/-- A token in a suffix is a token in the whole. -/
theorem hasTok_append_right {x : Str} (a : Str) (h : hasTok x) : hasTok (a ++ x) := by
  induction a with
  | nil => simpa
  | cons c t ih => exact Or.inr ih

/-- A token in a prefix is a token in the whole. -/
theorem hasTok_append_left {a : Str} (x : Str) (h : hasTok a) : hasTok (a ++ x) := by
  induction a with
  | nil => exact absurd h (by simp [hasTok])
  | cons c t ih =>
    rcases h with h | h
    · rcases h with ⟨r, b, heq, hrne, hrb⟩
      left
      injection heq with hc ht
      subst hc
      subst ht
      refine ⟨r, b ++ x, ?_, hrne, hrb⟩
      simp
    · exact Or.inr (ih h)

/-- Stripping cannot create a token. -/
theorem hasTok_pyStrip (x : Str) (h : hasTok (pyStrip x)) : hasTok x := by
  have h1 : hasTok (x.dropWhile isSpacePy) := by
    have hA : x.dropWhile isSpacePy =
        ((x.dropWhile isSpacePy).reverse.dropWhile isSpacePy).reverse ++
          ((x.dropWhile isSpacePy).reverse.takeWhile isSpacePy).reverse := by
      have hsplit := List.takeWhile_append_dropWhile isSpacePy
        (x.dropWhile isSpacePy).reverse
      calc x.dropWhile isSpacePy
          = (x.dropWhile isSpacePy).reverse.reverse := (List.reverse_reverse _).symm
        _ = ((x.dropWhile isSpacePy).reverse.takeWhile isSpacePy ++
              (x.dropWhile isSpacePy).reverse.dropWhile isSpacePy).reverse := by
              rw [hsplit]
        _ = _ := by rw [List.reverse_append]
    rw [hA]
    exact hasTok_append_left _ h
  have h2 : x = x.takeWhile isSpacePy ++ x.dropWhile isSpacePy :=
    (List.takeWhile_append_dropWhile isSpacePy x).symm
  rw [h2]
  exact hasTok_append_right _ h1

set_option maxHeartbeats 2000000 in
/-- C9: for every template and every alert, the rendered output contains no
unresolved placeholder token — no substring of the form `{{`, a nonempty
run of non-`}` characters, `}}` survives the safety pass — and the output
is trimmed: stripping it again changes nothing. -/
theorem C9_render_safety :
    ∀ (template : String) (a : Alert) (now : String),
      ¬ hasTok (render_template template a now).toList ∧
      render_template template a now =
        String.mk (pyStrip (render_template template a now).toList) := by
  intro template a now
  constructor
  · intro h
    have h2 : hasTok (pyStrip (subAll ((replacements a now).foldl
        (fun m kv => replaceAll kv.1.toList kv.2.toList m) template.toList))) := h
    have h3 : hasTok (subAll ((replacements a now).foldl
        (fun m kv => replaceAll kv.1.toList kv.2.toList m) template.toList)) :=
      hasTok_pyStrip (subAll ((replacements a now).foldl
        (fun m kv => replaceAll kv.1.toList kv.2.toList m) template.toList)) h2
    exact subAll_no_tok ((replacements a now).foldl
        (fun m kv => replaceAll kv.1.toList kv.2.toList m) template.toList).length
      ((replacements a now).foldl
        (fun m kv => replaceAll kv.1.toList kv.2.toList m) template.toList) le_rfl h3
  · show String.mk (pyStrip (subAll ((replacements a now).foldl
        (fun m kv => replaceAll kv.1.toList kv.2.toList m) template.toList))) =
      String.mk (pyStrip (String.mk (pyStrip (subAll ((replacements a now).foldl
        (fun m kv => replaceAll kv.1.toList kv.2.toList m) template.toList)))).toList)
    generalize subAll ((replacements a now).foldl
        (fun m kv => replaceAll kv.1.toList kv.2.toList m) template.toList) = y
    exact congrArg String.mk (pyStrip_idem y).symm

end ModelsMonitor
